import Mathlib

/-!
Shallow embedding of the finOpen authentication, session and RBAC
authorization layer (src/src/middleware/auth.js,
src/src/middleware/authorization.js, the auth routes handler and the
users controller), together with proofs settling the frozen claims.

Modelling conventions:
* Machine time (`Date.now()`, `new Date()`) is a `Nat` of milliseconds
  passed explicitly as `now`.
* `bcrypt.hash(x, 10)` draws a fresh random salt on every call; the salt
  is made explicit as a `Nat` argument and the digest is modelled as the
  pair of preimage and salt (`BcryptHash`).  Two digests are equal exactly
  when both the preimage and the salt coincide, which is the standard
  symbolic idealisation of a collision-resistant salted hash: bcrypt
  output embeds its salt, so digests of the same input under different
  salts are distinct strings.
* A signed JWT is modelled as its verified payload together with its
  expiry (`RawToken.signed`); an unverifiable string is
  `RawToken.malformed`.  `jwt.verify` is the codec inverse.
* Sequelize stores are modelled as lists inside `Db`; a read that may
  throw is an `Except Unit` value.  `findOne`/`findByPk` with an inner
  `include ... where` join is translated into the corresponding list
  search.
* The middlewares are pure functions of the request state; `next()` with
  attached data is a constructor, an HTTP error response is `err status
  message`.  The `lastLogin` timestamp write performed by `authenticate`
  and the login handler touches state no claim reads and is not part of
  the modelled state.
-/

deriving instance DecidableEq for Except

namespace FinOpen

/-- Payload carried by a signed JWT: userId, email, role
(src/src/middleware/auth.js, generateToken). -/
structure TokenClaims where
  userId : Nat
  email : String
  role : String
deriving DecidableEq, Repr

/-- A raw bearer token string: either a token signed with the server
secret carrying its claims and expiry, or an unverifiable string. -/
inductive RawToken where
  | signed : TokenClaims → Nat → RawToken
  | malformed : String → RawToken
deriving DecidableEq, Repr

/-- Symbolic bcrypt digest: preimage plus the salt drawn for this call. -/
structure BcryptHash (α : Type) where
  data : α
  salt : Nat
deriving DecidableEq, Repr

/-- Model of bcrypt.hash(data, 10) with the per-call random salt made
explicit. -/
def bcryptHash {α : Type} (data : α) (salt : Nat) : BcryptHash α :=
  ⟨data, salt⟩

/-- Model of bcrypt.compare(data, digest): true when the digest was
produced from this preimage (any salt). -/
def bcryptCompare {α : Type} [BEq α] (data : α) (h : BcryptHash α) : Bool :=
  h.data == data

/-- Permission row as projected by getUserPermissions: id, name,
resource, action (src/src/middleware/authorization.js lines 38-43). -/
structure Permission where
  id : Nat
  name : String
  resource : String
  action : String
deriving DecidableEq, Repr

/-- Role row with its associated permissions (the role→permission join
resolved by the include). -/
structure Role where
  id : Nat
  name : String
  permissions : List Permission
deriving DecidableEq, Repr

/-- User row: id, email, bcrypt password hash, role string, active flag,
and the roles reachable through the user→role join. -/
structure User where
  id : Nat
  email : String
  passwordHash : BcryptHash String
  role : String
  isActive : Bool
  roles : List Role
deriving DecidableEq, Repr

/-- UserSession row stored by createUserSession: id, userId, bcrypt hash
of the raw token, origin ip, user agent, expiry instant. -/
structure UserSession where
  id : Nat
  userId : Nat
  tokenHash : BcryptHash RawToken
  ipAddress : String
  userAgent : String
  expiresAt : Nat
deriving DecidableEq, Repr

/-- The relational store: User and UserSession tables. -/
structure Db where
  users : List User
  sessions : List UserSession
deriving DecidableEq, Repr

/-- JWT_EXPIRES_IN default of 24 hours, in milliseconds. -/
def JWT_EXPIRES_MS : Nat := 24 * 60 * 60 * 1000

/-- Session validity window set by createUserSession:
expiresAt.setHours(getHours() + 24), i.e. 24 hours. -/
def SESSION_VALIDITY_MS : Nat := 24 * 60 * 60 * 1000

/-- Error discriminants of jwt.verify: JsonWebTokenError (cannot
parse/decode or bad signature) and TokenExpiredError. -/
inductive JwtError where
  | invalidToken
  | expiredToken
deriving DecidableEq, Repr

/-- Model of jwt.verify(token, JWT_SECRET) at instant now. -/
def jwtVerify (t : RawToken) (now : Nat) : Except JwtError TokenClaims :=
  match t with
  | .malformed _ => .error .invalidToken
  | .signed c exp => if exp ≤ now then .error .expiredToken else .ok c

/-- Model of generateToken (src/src/middleware/auth.js lines 120-134):
signs userId, email, role with a 24h expiry. -/
def generateToken (user : User) (now : Nat) : RawToken :=
  .signed ⟨user.id, user.email, user.role⟩ (now + JWT_EXPIRES_MS)

/-- The UserSession.findOne of authenticate/optionalAuth: first session
whose tokenHash equals the recomputed hash, whose expiresAt is strictly
greater than now, joined (include ... where) to the user row with
id = decoded.userId and isActive true. -/
def findSession (db : Db) (hash : BcryptHash RawToken) (now : Nat)
    (uid : Nat) : Option (UserSession × User) :=
  db.sessions.findSome? fun s =>
    if s.tokenHash == hash && decide (now < s.expiresAt) && s.userId == uid then
      (db.users.find? fun u => u.id == s.userId && u.isActive).map fun u => (s, u)
    else
      none

/-- Outcome of the authenticate middleware: next() with req.user and
req.session attached, or an HTTP error response. -/
inductive AuthResult where
  | ok : User → UserSession → AuthResult
  | err : Nat → String → AuthResult
deriving DecidableEq, Repr

/-- Model of the authenticate middleware (src/src/middleware/auth.js
lines 7-77).  store is the session/user storage read, which may throw
(caught by the catch-all as a 500); freshSalt is the salt bcrypt draws
for the per-request hash recomputation on line 24. -/
def authenticate (store : Except Unit Db) (tokenOpt : Option RawToken)
    (now : Nat) (freshSalt : Nat) : AuthResult :=
  match tokenOpt with
  | none => .err 401 "Access token is required"
  | some token =>
    match jwtVerify token now with
    | .error .invalidToken => .err 401 "Invalid token"
    | .error .expiredToken => .err 401 "Token expired"
    | .ok decoded =>
      match store with
      | .error _ => .err 500 "Authentication failed"
      | .ok db =>
        match findSession db (bcryptHash token freshSalt) now decoded.userId with
        | none => .err 401 "Invalid or expired token"
        | some (s, u) => .ok u s

/-- Outcome of the optionalAuth middleware: always next(), optionally
with req.user and req.session attached; err would be an error response
short-circuiting the chain. -/
inductive MwResult where
  | next : Option User → Option UserSession → MwResult
  | err : Nat → String → MwResult
deriving DecidableEq, Repr

/-- Model of the optionalAuth middleware (src/src/middleware/auth.js
lines 80-117): same lookup as authenticate but every failure path,
including a throwing storage read, falls through to next() without
attaching an identity. -/
def optionalAuth (store : Except Unit Db) (tokenOpt : Option RawToken)
    (now : Nat) (freshSalt : Nat) : MwResult :=
  match tokenOpt with
  | none => .next none none
  | some token =>
    match jwtVerify token now with
    | .error _ => .next none none
    | .ok decoded =>
      match store with
      | .error _ => .next none none
      | .ok db =>
        match findSession db (bcryptHash token freshSalt) now decoded.userId with
        | none => .next none none
        | some (s, u) => .next (some u) (some s)

/-- Model of createUserSession (src/src/middleware/auth.js lines
137-149): hashes the raw token with a fresh salt and inserts a session
row expiring 24 hours from now.  sid is the id the store assigns to the
new row. -/
def createUserSession (db : Db) (user : User) (token : RawToken)
    (now : Nat) (ip ua : String) (salt : Nat) (sid : Nat) :
    Db × UserSession :=
  let s : UserSession :=
    ⟨sid, user.id, bcryptHash token salt, ip, ua, now + SESSION_VALIDITY_MS⟩
  (⟨db.users, db.sessions ++ [s]⟩, s)

/-- Model of destroyUserSession (src/src/middleware/auth.js lines
152-156): destroy where id = sessionId; returns the destroyed count. -/
def destroyUserSession (db : Db) (sessionId : Nat) : Db × Nat :=
  (⟨db.users, db.sessions.filter fun s => !(s.id == sessionId)⟩,
   db.sessions.countP fun s => s.id == sessionId)

/-- Model of cleanExpiredSessions (src/src/middleware/auth.js lines
166-185): destroy where expiresAt Op.lt now; returns the destroyed
count. -/
def cleanExpiredSessions (db : Db) (now : Nat) : Db × Nat :=
  (⟨db.users, db.sessions.filter fun s => !(decide (s.expiresAt < now))⟩,
   db.sessions.countP fun s => decide (s.expiresAt < now))

/-- Model of the POST /login handler (auth routes, lines 87-144): finds
an active user by email, checks the password with bcrypt.compare, signs
a token and persists a session.  On success returns the updated store,
the user, the raw token and the session expiry; otherwise the 401
Invalid credentials error.  salt is the salt createUserSession draws,
sid the id assigned to the session row. -/
def login (db : Db) (email password : String) (now : Nat) (ip ua : String)
    (salt : Nat) (sid : Nat) :
    Except (Nat × String) (Db × User × RawToken × Nat) :=
  match db.users.find? fun u => u.email == email && u.isActive with
  | none => .error (401, "Invalid credentials")
  | some user =>
    if bcryptCompare password user.passwordHash then
      let token := generateToken user now
      let created := createUserSession db user token now ip ua salt sid
      .ok (created.1, user, token, created.2.expiresAt)
    else
      .error (401, "Invalid credentials")

/-- Model of the User.update isActive write inside toggleUserStatus
(users controller): sets the active flag of every user row with the
given id. -/
def updateUserActive (db : Db) (userId : Nat) (active : Bool) : Db :=
  ⟨db.users.map fun u => if u.id == userId then { u with isActive := active } else u,
   db.sessions⟩

/-- Model of toggleUserStatus (users controller, lines 274-305): 404
when the target does not exist, 400 on self-deactivation, otherwise
flips the active flag and returns the new status. -/
def toggleUserStatus (db : Db) (targetId : Nat) (requesterId : Nat) :
    Except (Nat × String) (Db × Bool) :=
  match db.users.find? fun u => u.id == targetId with
  | none => .error (404, "User not found")
  | some user =>
    if requesterId == user.id then
      .error (400, "You cannot deactivate your own account")
    else
      let newStatus := !user.isActive
      .ok (updateUserActive db user.id newStatus, newStatus)

/-- CACHE_TTL of the permissions cache: 5 minutes in milliseconds
(src/src/middleware/authorization.js line 6). -/
def CACHE_TTL : Nat := 5 * 60 * 1000

/-- One permissionsCache entry: the resolved permissions and the
Date.now() at which they were cached. -/
structure CacheEntry where
  permissions : List Permission
  timestamp : Nat
deriving DecidableEq, Repr

/-- The permissionsCache Map keyed by user id (the cacheKey string
user_permissions_id is determined by the id). -/
abbrev PermissionsCache := List (Nat × CacheEntry)

/-- Map.get of the permissions cache. -/
def cacheGet (cache : PermissionsCache) (userId : Nat) : Option CacheEntry :=
  (cache.find? fun e => e.fst == userId).map Prod.snd

/-- Map.set of the permissions cache: replaces any entry under the same
key. -/
def cacheSet (cache : PermissionsCache) (userId : Nat) (entry : CacheEntry) :
    PermissionsCache :=
  (userId, entry) :: cache.filter fun e => !(e.fst == userId)

/-- One step of the permission-collection loop of getUserPermissions
(lines 35-46): push the permission unless one with the same id was
already collected. -/
def addPermission (acc : List Permission) (p : Permission) : List Permission :=
  if acc.any fun q => q.id == p.id then acc else acc ++ [p]

/-- The nested forEach of getUserPermissions: collect the permissions of
every role, deduplicated by permission id. -/
def collectPermissions (roles : List Role) : List Permission :=
  roles.foldl (fun acc role => role.permissions.foldl addPermission acc) []

/-- Result of one getUserPermissions call: the permissions returned, the
cache as left behind, and whether a storage read was performed (the
User.findByPk call, including a read that throws). -/
structure ResolveResult where
  permissions : List Permission
  cache : PermissionsCache
  storageRead : Bool
deriving DecidableEq, Repr

/-- The storage path of getUserPermissions (lines 17-58): User.findByPk
with the role/permission includes.  A throwing read is caught and turned
into the empty permission list without touching the cache; a missing
user also returns the empty list uncached; otherwise the collected
permissions are cached under the user id with the current timestamp. -/
def getUserPermissionsFromStore (store : Nat → Except Unit (Option User))
    (cache : PermissionsCache) (userId : Nat) (now : Nat) : ResolveResult :=
  match store userId with
  | .error _ => ⟨[], cache, true⟩
  | .ok none => ⟨[], cache, true⟩
  | .ok (some user) =>
    let permissions := collectPermissions user.roles
    ⟨permissions, cacheSet cache userId ⟨permissions, now⟩, true⟩

/-- Model of getUserPermissions (src/src/middleware/authorization.js
lines 9-59): serve from the cache when an entry exists and now minus its
timestamp is below CACHE_TTL, otherwise read the store. -/
def getUserPermissions (store : Nat → Except Unit (Option User))
    (cache : PermissionsCache) (userId : Nat) (now : Nat) : ResolveResult :=
  match cacheGet cache userId with
  | some cached =>
    if now - cached.timestamp < CACHE_TTL then
      ⟨cached.permissions, cache, false⟩
    else
      getUserPermissionsFromStore store cache userId now
  | none => getUserPermissionsFromStore store cache userId now

/-- A requiredPermissions entry of authorize: a permission name string
or a resource/action object (lines 82-89). -/
inductive Required where
  | byName : String → Required
  | byResourceAction : String → String → Required
deriving DecidableEq, Repr

/-- The per-entry match of authorize: by name for a string entry, by
resource and action for an object entry. -/
def permissionMatches (p : Permission) (r : Required) : Bool :=
  match r with
  | .byName n => p.name == n
  | .byResourceAction res act => p.resource == res && p.action == act

/-- Outcome of an authorization gate: next() or an HTTP error
response. -/
inductive GateResult where
  | next
  | err : Nat → String → GateResult
deriving DecidableEq, Repr

/-- Model of authorize(requiredPermissions)
(src/src/middleware/authorization.js lines 62-116): 401 without an
authenticated user, admin short-circuits to next(), otherwise every
required entry must match some resolved permission, else 403.  Returns
the gate outcome together with the cache left by the resolution. -/
def authorize (required : List Required) (reqUser : Option User)
    (store : Nat → Except Unit (Option User)) (cache : PermissionsCache)
    (now : Nat) : GateResult × PermissionsCache :=
  match reqUser with
  | none => (.err 401 "Authentication required", cache)
  | some u =>
    if u.role == "admin" then (.next, cache)
    else
      let res := getUserPermissions store cache u.id now
      if required.all fun r => res.permissions.any fun p => permissionMatches p r then
        (.next, res.cache)
      else
        (.err 403 "Insufficient permissions", res.cache)

/-- Model of requireRole(roles) (src/src/middleware/authorization.js
lines 119-144) applied to an already-normalised role list: 401 without
an authenticated user, 403 unless the user's role is in the list. -/
def requireRole (allowedRoles : List String) (reqUser : Option User) :
    GateResult :=
  match reqUser with
  | none => .err 401 "Authentication required"
  | some u =>
    if allowedRoles.contains u.role then .next
    else .err 403 "Insufficient role permissions"

/-- Model of requireOwnership(getResourceUserId)
(src/src/middleware/authorization.js lines 147-185): 401 without an
authenticated user, admin short-circuits to next(), then the resource
owner id is computed (a throwing computation is caught as the 500) and
compared with the user id. -/
def requireOwnership (getResourceUserId : Except Unit Nat)
    (reqUser : Option User) : GateResult :=
  match reqUser with
  | none => .err 401 "Authentication required"
  | some u =>
    if u.role == "admin" then .next
    else
      match getResourceUserId with
      | .error _ => .err 500 "Access verification failed"
      | .ok resourceUserId =>
        if resourceUserId == u.id then .next
        else .err 403 "Access denied: You can only access your own resources"

/-! ## Helper lemmas -/

/-- Splitting a list by a boolean predicate: the matching count plus the
length of the non-matching sublist is the original length. -/
theorem countP_add_length_filter_not {α : Type} (p : α → Bool) (l : List α) :
    l.countP p + (l.filter fun a => !(p a)).length = l.length := by
  induction l with
  | nil => rfl
  | cons a l ih =>
    cases hpa : p a with
    | false =>
      simp only [List.countP_cons, List.filter_cons, hpa, Bool.not_false,
        if_true, List.length_cons]
      simp only [Bool.false_eq_true, if_false]
      omega
    | true =>
      simp only [List.countP_cons, List.filter_cons, hpa, Bool.not_true,
        List.length_cons]
      simp only [Bool.false_eq_true, if_false, if_true]
      omega

/-- The session lookup comes back empty when no stored row carries the
digest being searched for. -/
theorem findSession_eq_none_of_hash_ne (db : Db) (hash : BcryptHash RawToken)
    (now uid : Nat) (h : ∀ s ∈ db.sessions, s.tokenHash ≠ hash) :
    findSession db hash now uid = none := by
  unfold findSession
  rw [List.findSome?_eq_none_iff]
  intro s hs
  have hbe : (s.tokenHash == hash) = false := beq_eq_false_iff_ne.mpr (h s hs)
  simp [hbe]

/-- The session lookup comes back empty when every user row carrying the
searched id is inactive: the inner join of the include excludes every
candidate session. -/
theorem findSession_eq_none_of_inactive (db : Db) (hash : BcryptHash RawToken)
    (now uid : Nat) (h : ∀ u ∈ db.users, u.id = uid → u.isActive = false) :
    findSession db hash now uid = none := by
  unfold findSession
  rw [List.findSome?_eq_none_iff]
  intro s hs
  by_cases hc : (s.tokenHash == hash && decide (now < s.expiresAt) &&
      s.userId == uid) = true
  · rw [if_pos hc]
    have huid : s.userId = uid := by
      have h2 := hc
      simp only [Bool.and_eq_true, beq_iff_eq] at h2
      exact h2.2
    have hfind : (db.users.find? fun u => u.id == s.userId && u.isActive) = none := by
      rw [List.find?_eq_none]
      intro u hu
      simp only [Bool.and_eq_true, beq_iff_eq, not_and, huid]
      intro hid
      simp [h u hu hid]
    simp [hfind]
  · rw [if_neg hc]

/-- Reading the cache entry just written returns it. -/
theorem cacheGet_cacheSet (cache : PermissionsCache) (userId : Nat)
    (e : CacheEntry) : cacheGet (cacheSet cache userId e) userId = some e := by
  unfold cacheGet cacheSet
  rw [List.find?_cons_of_pos]
  · rfl
  · simp

/-- Every permission collected by the fold comes from the accumulator or
from the traversed list. -/
theorem mem_foldl_addPermission (l : List Permission) (acc : List Permission)
    (q : Permission) (h : q ∈ l.foldl addPermission acc) : q ∈ acc ∨ q ∈ l := by
  induction l generalizing acc with
  | nil => exact .inl h
  | cons p l ih =>
    simp only [List.foldl_cons] at h
    rcases ih (addPermission acc p) h with h1 | h1
    · unfold addPermission at h1
      by_cases hc : (acc.any fun q2 => q2.id == p.id) = true
      · rw [if_pos hc] at h1
        exact .inl h1
      · rw [if_neg hc] at h1
        rcases List.mem_append.mp h1 with h2 | h2
        · exact .inl h2
        · simp at h2
          rw [h2]
          exact .inr (List.mem_cons_self p l)
    · exact .inr (List.mem_cons_of_mem p h1)

/-- A permission id appears after one addPermission step exactly when it
appears in the accumulator or is the id of the pushed permission. -/
theorem idMem_addPermission (acc : List Permission) (p : Permission) (i : Nat) :
    (∃ q ∈ addPermission acc p, q.id = i) ↔
      (∃ q ∈ acc, q.id = i) ∨ p.id = i := by
  unfold addPermission
  by_cases hc : (acc.any fun q2 => q2.id == p.id) = true
  · rw [if_pos hc]
    constructor
    · exact fun h => .inl h
    · rintro (h | h)
      · exact h
      · rcases List.any_eq_true.mp hc with ⟨q2, hq2, hbeq⟩
        refine ⟨q2, hq2, ?_⟩
        rw [← h]
        simpa using hbeq
  · rw [if_neg hc]
    simp [List.mem_append, or_and_right, exists_or]

/-- A permission id appears after folding a permission list exactly when
it appears in the accumulator or in the list. -/
theorem idMem_foldl_addPermission (l : List Permission) (acc : List Permission)
    (i : Nat) :
    (∃ q ∈ l.foldl addPermission acc, q.id = i) ↔
      (∃ q ∈ acc, q.id = i) ∨ (∃ q ∈ l, q.id = i) := by
  induction l generalizing acc with
  | nil => simp
  | cons p l ih =>
    simp only [List.foldl_cons]
    rw [ih (addPermission acc p), idMem_addPermission]
    simp only [List.exists_mem_cons_iff]
    exact or_assoc

/-- The fold keeps the collected permission ids pairwise distinct. -/
theorem nodup_ids_foldl_addPermission (l : List Permission)
    (acc : List Permission) (h : (acc.map Permission.id).Nodup) :
    ((l.foldl addPermission acc).map Permission.id).Nodup := by
  induction l generalizing acc with
  | nil => exact h
  | cons p l ih =>
    simp only [List.foldl_cons]
    apply ih
    unfold addPermission
    by_cases hc : (acc.any fun q2 => q2.id == p.id) = true
    · rw [if_pos hc]; exact h
    · rw [if_neg hc]
      rw [List.map_append]
      apply List.Nodup.append h (List.nodup_singleton p.id)
      intro a ha hb
      simp only [List.map_cons, List.map_nil, List.mem_singleton] at hb
      rw [hb] at ha
      rcases List.mem_map.mp ha with ⟨q, hq, hqid⟩
      exact hc (List.any_eq_true.mpr ⟨q, hq, by simp [hqid]⟩)

/-- Generalised id-membership over the fold across roles. -/
theorem idMem_foldl_roles (roles : List Role) (i : Nat)
    (acc : List Permission) :
    (∃ q ∈ roles.foldl (fun acc role =>
      role.permissions.foldl addPermission acc) acc, q.id = i) ↔
    (∃ q ∈ acc, q.id = i) ∨
      ∃ role ∈ roles, ∃ q ∈ role.permissions, q.id = i := by
  induction roles generalizing acc with
  | nil => simp
  | cons r rs ih =>
    simp only [List.foldl_cons]
    rw [ih (r.permissions.foldl addPermission acc), idMem_foldl_addPermission]
    simp only [List.exists_mem_cons_iff]
    exact or_assoc

/-- A permission id appears in collectPermissions exactly when some role
carries a permission with that id. -/
theorem idMem_collectPermissions (roles : List Role) (i : Nat) :
    (∃ q ∈ collectPermissions roles, q.id = i) ↔
      ∃ role ∈ roles, ∃ q ∈ role.permissions, q.id = i := by
  have h := idMem_foldl_roles roles i []
  simpa [collectPermissions] using h

/-- Generalised membership over the fold across roles. -/
theorem mem_foldl_roles (roles : List Role) (q : Permission)
    (acc : List Permission)
    (h : q ∈ roles.foldl (fun acc role =>
      role.permissions.foldl addPermission acc) acc) :
    q ∈ acc ∨ ∃ role ∈ roles, q ∈ role.permissions := by
  induction roles generalizing acc with
  | nil => exact .inl h
  | cons r rs ih =>
    simp only [List.foldl_cons] at h
    rcases ih (r.permissions.foldl addPermission acc) h with h2 | h2
    · rcases mem_foldl_addPermission r.permissions acc q h2 with h3 | h3
      · exact .inl h3
      · exact .inr ⟨r, List.mem_cons_self r rs, h3⟩
    · rcases h2 with ⟨role, hrole, hmem⟩
      exact .inr ⟨role, List.mem_cons_of_mem r hrole, hmem⟩

/-- Every permission resolved by collectPermissions is carried by one of
the roles. -/
theorem mem_collectPermissions (roles : List Role) (q : Permission)
    (hq : q ∈ collectPermissions roles) :
    ∃ role ∈ roles, q ∈ role.permissions := by
  rcases mem_foldl_roles roles q [] hq with h1 | h1
  · cases h1
  · exact h1

/-- Generalised id-distinctness over the fold across roles. -/
theorem nodup_ids_foldl_roles (roles : List Role) (acc : List Permission)
    (hacc : (acc.map Permission.id).Nodup) :
    (((roles.foldl (fun acc role =>
      role.permissions.foldl addPermission acc) acc)).map Permission.id).Nodup := by
  induction roles generalizing acc with
  | nil => exact hacc
  | cons r rs ih =>
    simp only [List.foldl_cons]
    exact ih _ (nodup_ids_foldl_addPermission r.permissions acc hacc)

/-- The ids of the permissions resolved by collectPermissions are
pairwise distinct. -/
theorem nodup_ids_collectPermissions (roles : List Role) :
    ((collectPermissions roles).map Permission.id).Nodup :=
  nodup_ids_foldl_roles roles [] (by simp)

/-! ## Claim theorems -/

/-- C8: for every authenticated identity and list allowedRoles, the
requireRole gate decides Authorized (next) exactly when the identity's
role is a member of allowedRoles, and an identity with role admin is
denied with the 403 Insufficient role permissions response whenever
admin is not in the list — no automatic admin bypass in the role
gate. -/
theorem C8_requireRole_iff (allowedRoles : List String) (u : User) :
    (requireRole allowedRoles (some u) = .next ↔ u.role ∈ allowedRoles) ∧
    (u.role = "admin" → "admin" ∉ allowedRoles →
      requireRole allowedRoles (some u) =
        .err 403 "Insufficient role permissions") := by
  constructor
  · unfold requireRole
    by_cases h : u.role ∈ allowedRoles
    · simp [h]
    · simp [h]
  · intro hrole hmem
    unfold requireRole
    have h : ¬ u.role ∈ allowedRoles := by rw [hrole]; exact hmem
    simp [h]

/-- Concrete witness for C8: an admin identity is denied by the role
gate when admin is not among the allowed roles. -/
theorem C8_requireRole_iff_witness :
    requireRole ["moderator", "user"]
        (some ⟨1, "admin@x", bcryptHash "pw" 0, "admin", true, []⟩) =
      GateResult.err 403 "Insufficient role permissions" :=
  (C8_requireRole_iff ["moderator", "user"] _).2 rfl (by decide)

/-- C9: for every authenticated identity and resource owner id, the
requireOwnership gate decides Authorized (next) exactly when the
identity's role is admin or the owner id equals the identity's id, and
any other identity receives the 403 ownership denial. -/
theorem C9_requireOwnership_iff (rid : Nat) (u : User) :
    (requireOwnership (.ok rid) (some u) = .next ↔
      (u.role = "admin" ∨ rid = u.id)) ∧
    (u.role ≠ "admin" → rid ≠ u.id →
      requireOwnership (.ok rid) (some u) =
        .err 403 "Access denied: You can only access your own resources") := by
  unfold requireOwnership
  by_cases hr : u.role = "admin"
  · simp [hr]
  · by_cases hid : rid = u.id
    · simp [hr, hid]
    · simp [hr, hid]

/-- Concrete witness for C9: a non-admin identity that does not own the
resource is denied with the ownership 403. -/
theorem C9_requireOwnership_iff_witness :
    requireOwnership (.ok 7)
        (some ⟨2, "u@x", bcryptHash "pw" 0, "user", true, []⟩) =
      GateResult.err 403 "Access denied: You can only access your own resources" :=
  (C9_requireOwnership_iff 7 _).2 (by decide) (by decide)

/-- C2: for every authenticated identity, the authorize gate is
Authorized for an admin regardless of the requirement list; for a
non-admin it is Authorized exactly when every required entry matches
some permission in the resolved permission set (AND semantics); and the
empty requirement list is always Authorized. -/
theorem C2_authorize_semantics (required : List Required) (u : User)
    (store : Nat → Except Unit (Option User)) (cache : PermissionsCache)
    (now : Nat) :
    (u.role = "admin" → (authorize required (some u) store cache now).1 = .next) ∧
    (u.role ≠ "admin" →
      ((authorize required (some u) store cache now).1 = .next ↔
        ∀ r ∈ required,
          ∃ p ∈ (getUserPermissions store cache u.id now).permissions,
            permissionMatches p r = true)) ∧
    (required = [] → (authorize required (some u) store cache now).1 = .next) := by
  refine ⟨fun h => by simp [authorize, h], fun h => ?_, fun h => ?_⟩
  · have hrole : (u.role == "admin") = false := by
      simpa using h
    by_cases hall : (required.all fun r =>
        (getUserPermissions store cache u.id now).permissions.any fun p =>
          permissionMatches p r) = true
    · simp only [authorize, hrole, Bool.false_eq_true, if_false, hall, if_true]
      constructor
      · intro _
        simpa [List.all_eq_true, List.any_eq_true] using hall
      · intro _; trivial
    · simp only [authorize, hrole, Bool.false_eq_true, if_false, hall]
      constructor
      · intro hcon; cases hcon
      · intro hcon
        exact absurd (by simpa [List.all_eq_true, List.any_eq_true] using hcon) hall
  · subst h
    by_cases hr : u.role = "admin" <;> simp [authorize, hr]

/-- Concrete witness for C2: the empty requirement list authorizes a
non-admin authenticated identity. -/
theorem C2_authorize_semantics_witness :
    (authorize [] (some ⟨3, "m@x", bcryptHash "pw" 0, "moderator", true, []⟩)
        (fun _ => .ok none) [] 0).1 = GateResult.next :=
  (C2_authorize_semantics [] _ _ [] 0).2.2 rfl

/-- A session table holding one row that expires at instant 5
exactly. -/
def c3db : Db :=
  ⟨[], [⟨1, 1, bcryptHash (RawToken.malformed "t") 0, "ip", "ua", 5⟩]⟩

/-- Counterexample to C3: the sweep destroys rows with expiresAt Op.lt
now, so a row whose expiry equals now is kept and not counted, while the
claim states such a row is removed and counted. -/
theorem C3_counterexample :
    ¬ ((cleanExpiredSessions c3db 5).1.sessions = [] ∧
       (cleanExpiredSessions c3db 5).2 = 1) := by
  decide

/-- C3 amended: sweepExpired(now) removes exactly the session rows whose
expiry is strictly less than now (a row with expiry equal to now is
kept), leaves every other row unchanged and in order, does not touch the
user table, and returns exactly the number of rows removed. -/
theorem C3_sweep_removes_strictly_expired (db : Db) (now : Nat) :
    (∀ s, s ∈ (cleanExpiredSessions db now).1.sessions ↔
      s ∈ db.sessions ∧ now ≤ s.expiresAt) ∧
    (cleanExpiredSessions db now).1.users = db.users ∧
    List.Sublist (cleanExpiredSessions db now).1.sessions db.sessions ∧
    (cleanExpiredSessions db now).2 +
      (cleanExpiredSessions db now).1.sessions.length = db.sessions.length := by
  refine ⟨?_, rfl, ?_, ?_⟩
  · intro s
    simp [cleanExpiredSessions, List.mem_filter, Nat.not_lt]
  · exact List.filter_sublist _
  · exact countP_add_length_filter_not _ db.sessions

/-- A non-admin identity used for the storage-failure scenario. -/
def c4user : User := ⟨4, "u4@x", bcryptHash "pw" 0, "user", true, []⟩

/-- A role/permission store whose read always throws. -/
def c4failStore : Nat → Except Unit (Option User) := fun _ => .error ()

/-- Counterexample to C4: with the role/permission store read throwing,
getUserPermissions swallows the failure into the empty permission list
and authorize denies a non-admin caller with 403 Insufficient
permissions — an authorization decision, not the 500-equivalent
StorageUnavailable response the claim requires (the 500 Authorization
failed path is not taken). -/
theorem C4_counterexample :
    (getUserPermissions c4failStore [] 4 0).permissions = [] ∧
    (authorize [Required.byName "routes.delete"] (some c4user) c4failStore [] 0).1 =
      GateResult.err 403 "Insufficient permissions" ∧
    (authorize [Required.byName "routes.delete"] (some c4user) c4failStore [] 0).1 ≠
      GateResult.err 500 "Authorization failed" := by
  refine ⟨rfl, rfl, by decide⟩

/-- C4 amended: when the role/permission store read throws for an
identity with no fresh cache entry — the entry is either absent or
already TTL-expired, so the resolution takes the storage path —
getUserPermissions catches the error and resolves the empty permission
list, so a non-admin identity with a nonempty requirement list is denied
403 Insufficient permissions — the storage failure is converted into an
authorization decision instead of surfacing as a 500-equivalent
StorageUnavailable error. -/
theorem C4_storage_failure_becomes_denial (required : List Required) (u : User)
    (store : Nat → Except Unit (Option User)) (cache : PermissionsCache)
    (now : Nat)
    (hfail : store u.id = .error ())
    (hstale : ∀ e, cacheGet cache u.id = some e → CACHE_TTL ≤ now - e.timestamp)
    (hrole : u.role ≠ "admin")
    (hne : required ≠ []) :
    (getUserPermissions store cache u.id now).permissions = [] ∧
    (authorize required (some u) store cache now).1 =
      GateResult.err 403 "Insufficient permissions" := by
  have hfrom : getUserPermissionsFromStore store cache u.id now =
      ⟨[], cache, true⟩ := by
    unfold getUserPermissionsFromStore
    rw [hfail]
  have hperm : getUserPermissions store cache u.id now = ⟨[], cache, true⟩ := by
    unfold getUserPermissions
    cases hg : cacheGet cache u.id with
    | none => simp only [hg]; exact hfrom
    | some e =>
      simp only [hg]
      rw [if_neg (Nat.not_lt.mpr (hstale e hg))]
      exact hfrom
  have hrole2 : (u.role == "admin") = false := by simpa using hrole
  refine ⟨by rw [hperm], ?_⟩
  cases required with
  | nil => exact absurd rfl hne
  | cons r rs =>
    simp [authorize, hrole2, hperm]

/-- A permissions cache holding a stale entry for identity 4: cached at
instant 0, read back at instant 300000, exactly the 5-minute TTL. -/
def c4staleCache : PermissionsCache :=
  [(4, ⟨[⟨9, "old.perm", "old", "perm"⟩], 0⟩)]

/-- Concrete witness for C4 amended: the throwing store, a non-admin
identity whose cache entry has expired, and a one-entry requirement list
produce the 403 denial. -/
theorem C4_storage_failure_becomes_denial_witness :
    (getUserPermissions c4failStore c4staleCache 4 300000).permissions = [] ∧
    (authorize [Required.byName "x"] (some c4user) c4failStore c4staleCache
        300000).1 = GateResult.err 403 "Insufficient permissions" :=
  C4_storage_failure_becomes_denial [Required.byName "x"] c4user c4failStore
    c4staleCache 300000 rfl
    (by
      intro e he
      simp only [c4staleCache, cacheGet, List.find?, Option.map] at he
      rw [show e = ⟨[⟨9, "old.perm", "old", "perm"⟩], 0⟩ by
        cases he
        rfl]
      decide)
    (by decide) (by decide)

/-- C1 (code bug): the session lookup of authenticate recomputes
bcrypt.hash of the presented token, and bcrypt draws a fresh random salt
on every call, so the recomputed digest never equals the tokenHash
stored by createUserSession whenever the two salts differ.  Hence a
token just returned by a successful login fails to authenticate strictly
inside the session validity window, with the 401 Invalid or expired
token response — contradicting the stated login/authenticate round
trip. -/
theorem C1_login_token_never_authenticates (db db1 : Db) (user : User)
    (token : RawToken) (expAt : Nat) (email password ip ua : String)
    (now t s1 s2 sid : Nat)
    (hlogin : login db email password now ip ua s1 sid =
      .ok (db1, user, token, expAt))
    (hdb : db.sessions = [])
    (hsalt : s1 ≠ s2)
    (_hwin1 : now ≤ t) (hwin2 : t < now + SESSION_VALIDITY_MS) :
    authenticate (.ok db1) (some token) t s2 =
      .err 401 "Invalid or expired token" := by
  unfold login at hlogin
  split at hlogin
  · cases hlogin
  · rename_i u0 hfind
    split at hlogin
    · simp only [Except.ok.injEq, Prod.mk.injEq] at hlogin
      obtain ⟨h1, h2, h3, h4⟩ := hlogin
      subst h1; subst h2; subst h3
      have hjwt : jwtVerify (generateToken u0 now) t =
          .ok ⟨u0.id, u0.email, u0.role⟩ := by
        have hlt : ¬ (now + JWT_EXPIRES_MS ≤ t) := by
          have : t < now + JWT_EXPIRES_MS := hwin2
          omega
        simp [generateToken, jwtVerify, hlt]
      have hbe : (bcryptHash (generateToken u0 now) s1 ==
          bcryptHash (generateToken u0 now) s2) = false := by
        apply beq_eq_false_iff_ne.mpr
        intro h
        exact hsalt (congrArg BcryptHash.salt h)
      have hne2 : bcryptHash (generateToken u0 now) s1 ≠
          bcryptHash (generateToken u0 now) s2 :=
        fun h => hsalt (congrArg BcryptHash.salt h)
      have hne3 : bcryptHash (generateToken u0 now) s2 ≠
          bcryptHash (generateToken u0 now) s1 :=
        fun h => hne2 h.symm
      simp only [authenticate, hjwt]
      simp [findSession, createUserSession, hdb, List.findSome?_cons, hne2, hne3]
    · cases hlogin

/-- The one-user store before login in the C1 scenario. -/
def c1db : Db := ⟨[⟨1, "a@b.c", bcryptHash "secret" 5, "user", true, []⟩], []⟩

/-- The raw token the C1 login issues at instant 0. -/
def c1token : RawToken := .signed ⟨1, "a@b.c", "user"⟩ (0 + JWT_EXPIRES_MS)

/-- The store after the C1 login persisted its session row under the
digest drawn with salt 1. -/
def c1db1 : Db :=
  ⟨[⟨1, "a@b.c", bcryptHash "secret" 5, "user", true, []⟩],
   [⟨10, 1, bcryptHash c1token 1, "ip", "ua", 0 + SESSION_VALIDITY_MS⟩]⟩

/-- Concrete witness for C1: the token issued by a successful login at
instant 0 is rejected at instant 1 — well inside the 24h window — once
the per-request bcrypt call draws salt 2 instead of the stored salt 1. -/
theorem C1_login_token_never_authenticates_witness :
    authenticate (.ok c1db1) (some c1token) 1 2 =
      .err 401 "Invalid or expired token" :=
  C1_login_token_never_authenticates c1db c1db1
    ⟨1, "a@b.c", bcryptHash "secret" 5, "user", true, []⟩ c1token
    (0 + SESSION_VALIDITY_MS) "a@b.c" "secret" "ip" "ua" 0 1 1 2 10
    (by decide) rfl (by decide) (by decide) (by decide)

/-- C5 amended: after logout destroys the session row that
createUserSession stored, every authenticate call presenting the same
raw token fails — but it fails with the generic 401 Invalid or expired
token response shared by every session-lookup failure, not a distinct
SessionNotFound classification. -/
theorem C5_logout_then_authenticate_fails (db : Db) (user : User)
    (token : RawToken) (c : TokenClaims) (ip ua : String)
    (now t s1 s2 sid : Nat)
    (hjwt : jwtVerify token t = .ok c)
    (hno : ∀ s ∈ db.sessions, s.tokenHash ≠ bcryptHash token s2) :
    authenticate
        (.ok (destroyUserSession
          (createUserSession db user token now ip ua s1 sid).1 sid).1)
        (some token) t s2 = .err 401 "Invalid or expired token" := by
  set db2 := (destroyUserSession
    (createUserSession db user token now ip ua s1 sid).1 sid).1 with hdb2
  have hno2 : ∀ s ∈ db2.sessions, s.tokenHash ≠ bcryptHash token s2 := by
    intro s hs
    rw [hdb2] at hs
    simp only [destroyUserSession, createUserSession, List.filter_append,
      List.mem_append, List.mem_filter] at hs
    rcases hs with ⟨hs, _⟩ | ⟨hs, hid⟩
    · exact hno s hs
    · simp at hs
      rw [hs] at hid
      simp at hid
  have hfs : findSession db2 (bcryptHash token s2) t c.userId = none :=
    findSession_eq_none_of_hash_ne db2 _ t c.userId hno2
  simp [authenticate, hjwt, hfs]

/-- The identity of the C5 scenario. -/
def c5user : User := ⟨1, "a@b.c", bcryptHash "pw" 0, "user", true, []⟩

/-- The raw token of the C5 scenario. -/
def c5token : RawToken := .signed ⟨1, "a@b.c", "user"⟩ 86400000

/-- A store with the same identity deactivated while its session row,
stored under the digest with salt 3, is still live. -/
def c5dbInactive : Db :=
  ⟨[⟨1, "a@b.c", bcryptHash "pw" 0, "user", false, []⟩],
   [⟨10, 1, bcryptHash c5token 3, "ip", "ua", 86400000⟩]⟩

/-- Counterexample to C5: after logout, authenticate fails with 401
Invalid or expired token — byte-identical to the response produced by an
entirely different cause (a live matching session whose identity is
inactive), so the failure carries no SessionNotFound-specific
classification. -/
theorem C5_counterexample :
    authenticate
        (.ok (destroyUserSession
          (createUserSession ⟨[c5user], []⟩ c5user c5token 0 "ip" "ua" 3 10).1 10).1)
        (some c5token) 5 3 = .err 401 "Invalid or expired token" ∧
    authenticate (.ok c5dbInactive) (some c5token) 5 3 =
      .err 401 "Invalid or expired token" := by
  constructor
  · decide
  · decide

/-- Concrete witness for C5 amended: login at instant 0 with salt 3 and
session id 10, logout, then authenticate at instant 5 reusing the very
same salt 3 — the row is gone, and the generic 401 response comes
back. -/
theorem C5_logout_then_authenticate_fails_witness :
    authenticate
        (.ok (destroyUserSession
          (createUserSession ⟨[c5user], []⟩ c5user c5token 0 "ip" "ua" 3 10).1 10).1)
        (some c5token) 5 3 = .err 401 "Invalid or expired token" :=
  C5_logout_then_authenticate_fails ⟨[c5user], []⟩ c5user c5token
    ⟨1, "a@b.c", "user"⟩ "ip" "ua" 0 5 3 3 10 (by decide) (by decide)

/-- The raw token of the C6 scenario. -/
def c6token : RawToken := .signed ⟨1, "a@b.c", "user"⟩ 86400000

/-- A store whose only identity was deactivated while its matching
session row (digest salt 3) is still unexpired. -/
def c6dbDeactivated : Db :=
  ⟨[⟨1, "a@b.c", bcryptHash "pw" 0, "user", false, []⟩],
   [⟨10, 1, bcryptHash c6token 3, "ip", "ua", 86400000⟩]⟩

/-- A store with the same identity active but no session row at all. -/
def c6dbNoSession : Db :=
  ⟨[⟨1, "a@b.c", bcryptHash "pw" 0, "user", true, []⟩], []⟩

/-- Counterexample to C6: authenticating the deactivated identity's
still-unexpired session token produces 401 Invalid or expired token —
byte-identical to the response when no session exists at all — so the
failure carries no IdentityInactive-specific classification. -/
theorem C6_counterexample :
    authenticate (.ok c6dbDeactivated) (some c6token) 5 3 =
      .err 401 "Invalid or expired token" ∧
    authenticate (.ok c6dbNoSession) (some c6token) 5 3 =
      .err 401 "Invalid or expired token" := by
  constructor
  · decide
  · decide

/-- C6 amended: deactivating an identity through toggleUserStatus leaves
its session rows untouched, and every subsequent authenticate presenting
a token for that identity fails — but with the generic 401 Invalid or
expired token response shared by every session-lookup failure, not a
distinct IdentityInactive classification. -/
theorem C6_deactivated_identity_fails_generic (db db2 : Db)
    (targetId requesterId t salt : Nat) (token : RawToken) (c : TokenClaims)
    (htog : toggleUserStatus db targetId requesterId = .ok (db2, false))
    (hjwt : jwtVerify token t = .ok c)
    (hcid : c.userId = targetId) :
    db2.sessions = db.sessions ∧
    authenticate (.ok db2) (some token) t salt =
      .err 401 "Invalid or expired token" := by
  unfold toggleUserStatus at htog
  split at htog
  · cases htog
  · rename_i u0 hfind
    split at htog
    · cases htog
    · rename_i hself
      simp only [Except.ok.injEq, Prod.mk.injEq] at htog
      obtain ⟨hdb2, hstatus⟩ := htog
      have hact : u0.isActive = true := by
        cases hb : u0.isActive
        · rw [hb] at hstatus; cases hstatus
        · rfl
      have hid0 : u0.id = targetId := by
        have := List.find?_some hfind
        simpa using this
      have hinact : ∀ u ∈ db2.users, u.id = c.userId → u.isActive = false := by
        intro u hu hcu
        rw [← hdb2] at hu
        simp only [updateUserActive, List.mem_map] at hu
        obtain ⟨v, _, hv⟩ := hu
        by_cases hveq : v.id = u0.id
        · rw [← hv]
          simp [hveq, hact, hstatus]
        · have : (v.id == u0.id) = false := by simpa using hveq
          rw [this] at hv
          simp at hv
          rw [← hv] at hcu
          rw [hcid, ← hid0] at hcu
          exact absurd hcu hveq
      refine ⟨by rw [← hdb2]; rfl, ?_⟩
      have hfs : findSession db2 (bcryptHash token salt) t c.userId = none :=
        findSession_eq_none_of_inactive db2 _ t c.userId hinact
      simp [authenticate, hjwt, hfs]

/-- The two-identity store before the C6 deactivation: identity 1 owns a
live session, identity 2 is the admin performing the toggle. -/
def c6dbBefore : Db :=
  ⟨[⟨1, "a@b.c", bcryptHash "pw" 0, "user", true, []⟩,
    ⟨2, "adm@x", bcryptHash "pw" 1, "admin", true, []⟩],
   [⟨10, 1, bcryptHash c6token 3, "ip", "ua", 86400000⟩]⟩

/-- The same store after toggleUserStatus deactivated identity 1. -/
def c6dbAfter : Db :=
  ⟨[⟨1, "a@b.c", bcryptHash "pw" 0, "user", false, []⟩,
    ⟨2, "adm@x", bcryptHash "pw" 1, "admin", true, []⟩],
   [⟨10, 1, bcryptHash c6token 3, "ip", "ua", 86400000⟩]⟩

/-- Concrete witness for C6 amended: admin 2 deactivates identity 1 via
toggleUserStatus; the session row survives and authenticate with the
matching-salt token at instant 5 returns the generic 401. -/
theorem C6_deactivated_identity_fails_generic_witness :
    c6dbAfter.sessions = c6dbBefore.sessions ∧
    authenticate (.ok c6dbAfter) (some c6token) 5 3 =
      .err 401 "Invalid or expired token" :=
  C6_deactivated_identity_fails_generic c6dbBefore c6dbAfter 1 2 5 3 c6token
    ⟨1, "a@b.c", "user"⟩ (by decide) (by decide) rfl

/-- C7: for an identity present in the store with no cached entry, a
first resolve reads storage and caches the result; a second resolve
within the TTL window with no mutation in between returns the identical
permission list, is served from the cache without a storage read, and
leaves the cache unchanged; and the resolved list is the union of the
permissions of all the identity's roles, deduplicated by permission
id. -/
theorem C7_resolve_cached_idempotent (store : Nat → Except Unit (Option User))
    (c0 : PermissionsCache) (u : User) (userId t1 t2 : Nat)
    (hstore : store userId = .ok (some u))
    (hmiss : cacheGet c0 userId = none)
    (httl : t2 - t1 < CACHE_TTL) :
    (getUserPermissions store
        (getUserPermissions store c0 userId t1).cache userId t2).permissions =
      (getUserPermissions store c0 userId t1).permissions ∧
    (getUserPermissions store
        (getUserPermissions store c0 userId t1).cache userId t2).storageRead =
      false ∧
    (getUserPermissions store c0 userId t1).storageRead = true ∧
    (getUserPermissions store
        (getUserPermissions store c0 userId t1).cache userId t2).cache =
      (getUserPermissions store c0 userId t1).cache ∧
    (∀ i, (∃ q ∈ (getUserPermissions store c0 userId t1).permissions, q.id = i) ↔
      ∃ role ∈ u.roles, ∃ q ∈ role.permissions, q.id = i) ∧
    ((getUserPermissions store c0 userId t1).permissions.map Permission.id).Nodup ∧
    (∀ q ∈ (getUserPermissions store c0 userId t1).permissions,
      ∃ role ∈ u.roles, q ∈ role.permissions) := by
  have h1 : getUserPermissions store c0 userId t1 =
      ⟨collectPermissions u.roles,
       cacheSet c0 userId ⟨collectPermissions u.roles, t1⟩, true⟩ := by
    unfold getUserPermissions getUserPermissionsFromStore
    rw [hmiss, hstore]
  have h2 : getUserPermissions store
      (cacheSet c0 userId ⟨collectPermissions u.roles, t1⟩) userId t2 =
      ⟨collectPermissions u.roles,
       cacheSet c0 userId ⟨collectPermissions u.roles, t1⟩, false⟩ := by
    unfold getUserPermissions
    rw [cacheGet_cacheSet]
    simp [httl]
  have hcache : (getUserPermissions store c0 userId t1).cache =
      cacheSet c0 userId ⟨collectPermissions u.roles, t1⟩ := by rw [h1]
  have hperms : (getUserPermissions store c0 userId t1).permissions =
      collectPermissions u.roles := by rw [h1]
  refine ⟨?_, ?_, ?_, ?_, ?_, ?_, ?_⟩
  · rw [hcache, h2, hperms]
  · rw [hcache, h2]
  · rw [h1]
  · rw [hcache, h2]
  · intro i
    rw [hperms]
    exact idMem_collectPermissions u.roles i
  · rw [hperms]
    exact nodup_ids_collectPermissions u.roles
  · rw [hperms]
    exact fun q hq => mem_collectPermissions u.roles q hq

/-- A permission granted by two different roles in the C7 scenario. -/
def c7perm1 : Permission := ⟨1, "routes.read", "routes", "read"⟩

/-- A permission granted by one role in the C7 scenario. -/
def c7perm2 : Permission := ⟨2, "routes.update", "routes", "update"⟩

/-- The C7 identity: a moderator holding two roles whose permission sets
overlap. -/
def c7user : User :=
  ⟨5, "mod@x", bcryptHash "pw" 0, "moderator", true,
   [⟨1, "moderator", [c7perm1, c7perm2]⟩, ⟨2, "reader", [c7perm1]⟩]⟩

/-- The C7 role/permission store: it knows identity 5 only. -/
def c7store : Nat → Except Unit (Option User) :=
  fun uid => if uid == 5 then .ok (some c7user) else .ok none

/-- Concrete witness for C7: resolving identity 5 at instant 100 and
again at instant 200 — within the 5-minute TTL — returns the identical
deduplicated permission list, the second time from the cache. -/
theorem C7_resolve_cached_idempotent_witness :
    (getUserPermissions c7store
        (getUserPermissions c7store [] 5 100).cache 5 200).permissions =
      (getUserPermissions c7store [] 5 100).permissions ∧
    (getUserPermissions c7store
        (getUserPermissions c7store [] 5 100).cache 5 200).storageRead =
      false ∧
    (getUserPermissions c7store [] 5 100).storageRead = true ∧
    (getUserPermissions c7store
        (getUserPermissions c7store [] 5 100).cache 5 200).cache =
      (getUserPermissions c7store [] 5 100).cache ∧
    (∀ i, (∃ q ∈ (getUserPermissions c7store [] 5 100).permissions, q.id = i) ↔
      ∃ role ∈ c7user.roles, ∃ q ∈ role.permissions, q.id = i) ∧
    ((getUserPermissions c7store [] 5 100).permissions.map Permission.id).Nodup ∧
    (∀ q ∈ (getUserPermissions c7store [] 5 100).permissions,
      ∃ role ∈ c7user.roles, q ∈ role.permissions) :=
  C7_resolve_cached_idempotent c7store [] c7user 5 100 200 rfl rfl (by decide)

/-- C10: the optionalAuth middleware is total and never rejects — for
every store state (including a throwing one), presented token, instant
and salt it returns next() rather than any error response; and it
attaches an identity and session only when the lookup actually found a
valid unexpired session for an active identity. -/
theorem C10_optionalAuth_total (store : Except Unit Db)
    (tokenOpt : Option RawToken) (now freshSalt : Nat) :
    (∀ status msg, optionalAuth store tokenOpt now freshSalt ≠ .err status msg) ∧
    (∀ u s, optionalAuth store tokenOpt now freshSalt = .next (some u) (some s) →
      ∃ db token c, store = .ok db ∧ tokenOpt = some token ∧
        jwtVerify token now = .ok c ∧
        findSession db (bcryptHash token freshSalt) now c.userId = some (s, u)) := by
  unfold optionalAuth
  refine ⟨fun st m h => ?_, fun u s h => ?_⟩
  · split at h
    · cases h
    · split at h
      · cases h
      · split at h
        · cases h
        · split at h
          · cases h
          · cases h
  · split at h
    · cases h
    · rename_i token htok
      split at h
      · cases h
      · rename_i c hj
        split at h
        · cases h
        · rename_i db hstore
          split at h
          · cases h
          · rename_i s0 u0 hf
            simp only [MwResult.next.injEq, Option.some.injEq] at h
            obtain ⟨hu, hs⟩ := h
            subst hu
            subst hs
            exact ⟨_, _, c, rfl, rfl, hj, hf⟩

/-- The C10 identity, session and store: a valid unexpired session whose
digest was drawn with salt 3. -/
def c10user : User := ⟨1, "a@b.c", bcryptHash "pw" 0, "user", true, []⟩

/-- The raw token of the C10 scenario. -/
def c10token : RawToken := .signed ⟨1, "a@b.c", "user"⟩ 86400000

/-- The C10 session row. -/
def c10sess : UserSession := ⟨10, 1, bcryptHash c10token 3, "ip", "ua", 86400000⟩

/-- The C10 store. -/
def c10db : Db := ⟨[c10user], [c10sess]⟩

/-- Concrete witness for C10: when optionalAuth does attach an identity
and session, the lookup really found that pair. -/
theorem C10_optionalAuth_total_witness :
    ∃ db token c, (Except.ok c10db : Except Unit Db) = .ok db ∧
      (some c10token) = some token ∧ jwtVerify token 5 = .ok c ∧
      findSession db (bcryptHash token 3) 5 c.userId = some (c10sess, c10user) :=
  (C10_optionalAuth_total (.ok c10db) (some c10token) 5 3).2 c10user c10sess
    (by decide)

end FinOpen
